import Mathlib

/-!
Verification of the turn pipeline of the Plama chat client.

The definitions below are a shallow embedding of the TypeScript sources:
`src/src/utils/messageUtils.ts` (context assembly) and
`src/src/stores/chat.ts` (`sendMessage`: stream interpretation, metrics,
finalization).  JavaScript strings become `String`, timestamps become `ℚ`,
`undefined`/`null` become `Option`, thrown exceptions become `Except`.
-/

namespace Plama

/-- Message role, the `'system' | 'user' | 'assistant'` union of the source. -/
inductive Role where
  | system
  | user
  | assistant
deriving DecidableEq, Repr

/-- The `ChatMessage` shape of `messageUtils.ts`: `{ role; content }`. -/
structure ChatMessage where
  role : Role
  content : String
deriving DecidableEq, Repr

/-- Whitespace as matched by JavaScript `\s` / `String.prototype.trim`
(ASCII part; the inputs in this development contain no exotic spaces). -/
def jsSpace (c : Char) : Bool :=
  c = ' ' || c = '\t' || c = '\n' || c = '\r' || c = '\x0b' || c = '\x0c'

/-- JavaScript `String.prototype.trim`: strip `jsSpace` from both ends. -/
def jsTrim (s : String) : String :=
  String.mk (((s.toList.dropWhile jsSpace).reverse.dropWhile jsSpace).reverse)

/-- Case-insensitive prefix test on character lists (JS regexes here carry
the `i` flag). -/
def lcIsPrefixOf : List Char → List Char → Bool
  | [], _ => true
  | _ :: _, [] => false
  | a :: as, b :: bs => a.toLower = b.toLower && lcIsPrefixOf as bs

/-- Match the opening part `<details\s+class="internal-context"[^>]*>` of the
internal-context regex at the head of `cs` (case-insensitively); on success
return the remainder after the closing `>`. -/
def matchOpenTail (cs : List Char) : Option (List Char) :=
  if lcIsPrefixOf "<details".toList cs then
    let rest1 := cs.drop 8
    let ws := rest1.takeWhile jsSpace
    if ws.isEmpty then none
    else
      let rest2 := rest1.dropWhile jsSpace
      let cls := "class=\"internal-context\"".toList
      if lcIsPrefixOf cls rest2 then
        let rest3 := rest2.drop cls.length
        match rest3.dropWhile (fun c => c ≠ '>') with
        | '>' :: rest4 => some rest4
        | _ => none
      else none
  else none

/-- Scan forward for the first (case-insensitive) `</details>` — the lazy
`[\s\S]*?<\/details>` part of the regex — and return what follows it. -/
def dropThroughClose : List Char → Option (List Char)
  | [] => none
  | c :: rest =>
    if lcIsPrefixOf "</details>".toList (c :: rest) then some ((c :: rest).drop 10)
    else dropThroughClose rest

/-- One global-replace pass: delete every match of
`<details\s+class="internal-context"[^>]*>[\s\S]*?<\/details>` (flags `gi`).
`fuel` bounds the recursion; each step consumes at least one character, so
`fuel = cs.length` never runs out. -/
def stripAux (fuel : Nat) (cs : List Char) : List Char :=
  match fuel with
  | 0 => cs
  | fuel + 1 =>
    match cs with
    | [] => []
    | c :: rest =>
      match matchOpenTail (c :: rest) with
      | some afterOpen =>
        match dropThroughClose afterOpen with
        | some afterClose => stripAux fuel afterClose
        | none => c :: stripAux fuel rest
      | none => c :: stripAux fuel rest

/-- `stripInternalContextBlocks` of `messageUtils.ts`: remove UI-only
`<details class="internal-context">…</details>` blocks, then trim. -/
def stripInternalContextBlocks (content : String) : String :=
  if content = "" then ""
  else jsTrim (String.mk (stripAux content.toList.length content.toList))

/-- `[a, b].filter(Boolean).join('\n\n')` for two strings (empty = falsy). -/
def joinFiltered (a b : String) : String :=
  if a = "" then b else if b = "" then a else a ++ "\n\n" ++ b

/-- Loop body of `mergeConsecutiveRoles`; `acc` is the `merged` array in
reverse (its head is the most recently pushed entry, which the source
mutates in place). -/
def mergeAux : List ChatMessage → List ChatMessage → List ChatMessage
  | acc, [] => acc.reverse
  | acc, m :: rest =>
    if jsTrim m.content = "" then mergeAux acc rest
    else
      match acc with
      | prev :: accTl =>
        if prev.role = m.role then
          mergeAux ({ role := prev.role, content := joinFiltered prev.content m.content } :: accTl) rest
        else
          mergeAux (⟨m.role, m.content⟩ :: prev :: accTl) rest
      | [] => mergeAux [⟨m.role, m.content⟩] rest

/-- `mergeConsecutiveRoles` of `messageUtils.ts`: skip entries whose content
trims to empty, merge adjacent same-role entries with a blank-line join. -/
def mergeConsecutiveRoles (messages : List ChatMessage) : List ChatMessage :=
  mergeAux [] messages

/-- Spec-side description of the merge ("merges consecutive same-role entries
by concatenating content with a blank-line separator", dropping nothing),
stated for comparison with `mergeConsecutiveRoles`; same accumulator shape,
but no entry is skipped and the separator is unconditional. -/
def mergeSpecAux : List ChatMessage → List ChatMessage → List ChatMessage
  | acc, [] => acc.reverse
  | acc, m :: rest =>
    match acc with
    | prev :: accTl =>
      if prev.role = m.role then
        mergeSpecAux (⟨prev.role, prev.content ++ "\n\n" ++ m.content⟩ :: accTl) rest
      else
        mergeSpecAux (⟨m.role, m.content⟩ :: prev :: accTl) rest
    | [] => mergeSpecAux [⟨m.role, m.content⟩] rest

/-- Content-preserving merge as the spec words it. -/
def mergeSpecModel (messages : List ChatMessage) : List ChatMessage :=
  mergeSpecAux [] messages

/-- A stored chat message as consumed by `buildOllamaRequestBody`
(`chat.messages[i]`): identity, role, display content. -/
structure HistMessage where
  id : String
  role : Role
  content : String
deriving DecidableEq, Repr

/-- The chat argument of `buildOllamaRequestBody`.  `systemPrompt` holds the
resolved `systemPromptContent` (the source accepts either a string or a
`{ content }` record and projects both to a string-or-undefined). -/
structure ChatRec where
  systemPrompt : Option String
  messages : List HistMessage
deriving DecidableEq, Repr

/-- `AttachmentType` of `types/chats.ts` (the variants the builder inspects). -/
inductive AttachmentType where
  | image
  | text
deriving DecidableEq, Repr

/-- An attachment: its type and its (possibly absent) content payload. -/
structure Attachment where
  type : AttachmentType
  content : Option String
deriving DecidableEq, Repr

/-- The slice of `ISettings` the builder reads.  `maxMessages = 0` models a
falsy setting, which `settings.maxMessages || 20` replaces by 20. -/
structure ISettings where
  maxMessages : Nat
deriving DecidableEq, Repr

/-- `settings.maxMessages || 20`. -/
def maxMessagesOf (settings : ISettings) : Nat :=
  if settings.maxMessages = 0 then 20 else settings.maxMessages

/-- JS truthiness of a possibly-absent string: present and non-empty. -/
def optTruthy : Option String → Bool
  | none => false
  | some s => s != ""

/-- `parts.filter(Boolean).join(sep)` on possibly-absent strings. -/
def joinTruthy (sep : String) (parts : List (Option String)) : String :=
  String.intercalate sep ((parts.filterMap id).filter (fun s => s != ""))

/-- JavaScript `arr.slice(-n)` for a non-negative number `n`.  Note the
source of the `-0` pitfall: `slice(-0)` is `slice(0)`, the whole array. -/
def sliceNeg (l : List α) (n : Nat) : List α :=
  if n = 0 then l else l.drop (l.length - n)

/-- Result of `buildOllamaRequestBody`: either a `messages`-style body or,
for an image attachment, a flattened `prompt` body with an image payload. -/
inductive BuildResult where
  | messagesBody (model : String) (messages : List ChatMessage)
  | imageBody (model : String) (prompt : String) (image : String)
deriving DecidableEq, Repr

/-- The entry list assembled by the non-image path of
`buildOllamaRequestBody` just before `mergeConsecutiveRoles` is applied:
optional system entry, sliced-and-stripped history, new user entry.
`maxMessages - reservedSlots` on `Nat` is exactly
`Math.max(0, maxMessages - reservedSlots)`. -/
def assembledEntries (chat : ChatRec) (userMessageId finalContent : String)
    (memoryContent : Option String) (maxMessages : Nat) : List ChatMessage :=
  let reservedSlots := (if optTruthy chat.systemPrompt || optTruthy memoryContent then 1 else 0) + 1
  let availableSlots := maxMessages - reservedSlots
  let systemContent := joinTruthy "\n" [chat.systemPrompt, memoryContent]
  let filteredMessages :=
    (sliceNeg (chat.messages.filter
        (fun msg => !(msg.id == userMessageId) && !(msg.role == Role.system))) availableSlots).map
      (fun msg => ChatMessage.mk msg.role (stripInternalContextBlocks msg.content))
  (if systemContent != "" then [ChatMessage.mk Role.system systemContent] else [])
    ++ filteredMessages ++ [ChatMessage.mk Role.user finalContent]

/-- `buildOllamaRequestBody` of `messageUtils.ts`.  Thrown errors become
`Except.error` with the thrown message; guard order follows the source
(model, user-id, image branch, user-message existence). -/
def buildOllamaRequestBody (chat : ChatRec) (selectedModel userMessageId finalContent : String)
    (attachmentContent : Option Attachment) (memoryContent : Option String)
    (settings : ISettings) : Except String BuildResult :=
  if selectedModel = "" then Except.error "No model selected"
  else if userMessageId = "" then Except.error "Invalid user message ID"
  else
    let maxMessages := maxMessagesOf settings
    let isImage := match attachmentContent with
      | some att => att.type == AttachmentType.image
      | none => false
    if isImage then
      match attachmentContent with
      | some att =>
        match att.content with
        | some img =>
          if img = "" then Except.error "Invalid image attachment content"
          else
            Except.ok (BuildResult.imageBody selectedModel
              (joinTruthy "\n" [chat.systemPrompt, memoryContent, some finalContent]) img)
        | none => Except.error "Invalid image attachment content"
      | none => Except.error "Invalid image attachment content"
    else if !(chat.messages.any (fun msg => msg.id == userMessageId)) then
      Except.error "User message not found in chat"
    else
      Except.ok (BuildResult.messagesBody selectedModel
        (mergeConsecutiveRoles (assembledEntries chat userMessageId finalContent memoryContent maxMessages)))

/-- The live metrics computed on every fragment and at finalization in
`sendMessage` (`firstTokenMs`, `responseMs`, `outputChars`, `speedCps`). -/
structure Metrics where
  firstTokenMs : Option ℚ
  responseMs : ℚ
  outputChars : Nat
  speedCps : Option ℚ
deriving DecidableEq, Repr

/-- The metrics block of `sendMessage`, common to the fragment loop, the
final update and the abort handler:
`speedCps = outputChars / Math.max(0.001, (now - firstTokenTime) / 1000)`
when a first fragment has been seen (`undefined` otherwise), with
`firstTokenMs = firstTokenTime - requestStartTime` under the same guard. -/
def computeMetrics (requestStartTime : ℚ) (firstTokenTime : Option ℚ) (now : ℚ)
    (outputChars : Nat) : Metrics :=
  { firstTokenMs := firstTokenTime.map (fun ft => ft - requestStartTime)
    responseMs := now - requestStartTime
    outputChars := outputChars
    speedCps := firstTokenTime.map
      (fun ft => (outputChars : ℚ) / max (1 / 1000) ((now - ft) / 1000)) }

/-- The assistant `Message` entity as mutated by `addMessage` /
`updateMessage` during a turn (the fields the pipeline touches). -/
structure MsgRec where
  content : String
  isLoading : Bool
  isThinking : Bool
  thinkTime : Option ℚ
  firstTokenMs : Option ℚ
  responseMs : Option ℚ
  outputChars : Option Nat
  speedCps : Option ℚ
deriving DecidableEq, Repr

/-- `updateMessage` of `stores/chat.ts`: content is always replaced; every
other field is replaced only when the argument is defined. -/
def applyUpdate (m : MsgRec) (content : String) (isLoading : Option Bool)
    (thinkTime : Option ℚ) (isThinking : Option Bool) (extra : Option Metrics) : MsgRec :=
  { content := content
    isLoading := isLoading.getD m.isLoading
    isThinking := isThinking.getD m.isThinking
    thinkTime := thinkTime <|> m.thinkTime
    firstTokenMs := match extra with
      | some e => e.firstTokenMs <|> m.firstTokenMs
      | none => m.firstTokenMs
    responseMs := match extra with
      | some e => some e.responseMs
      | none => m.responseMs
    outputChars := match extra with
      | some e => some e.outputChars
      | none => m.outputChars
    speedCps := match extra with
      | some e => e.speedCps <|> m.speedCps
      | none => m.speedCps }

/-- One streamed chunk as seen by the `processStream` callback:
`data.message?.thinking`, `data.message?.content`, and the wall-clock time at
which the fragment is processed (every `Date.now()` during one fragment). -/
structure Fragment where
  thinking : Option String
  content : Option String
  now : ℚ
deriving DecidableEq, Repr

/-- The mutable locals of the streaming section of `sendMessage`.  The
`setInterval` handle becomes the flag `thinkTimeInterval` (is a tick
scheduled); the lazily created assistant message and its store record
collapse into `assistantMessage`. -/
structure StreamState where
  thinkStartTime : Option ℚ
  isInThinkBlock : Bool
  thinkTagBuffer : String
  assistantMessage : Option MsgRec
  assistantContent : String
  thinkTimeInterval : Bool
  firstTokenTime : Option ℚ
  usesThinkingField : Bool
deriving DecidableEq, Repr

/-- The locals right after declaration, before any fragment arrives. -/
def initStreamState : StreamState :=
  { thinkStartTime := none
    isInThinkBlock := false
    thinkTagBuffer := ""
    assistantMessage := none
    assistantContent := ""
    thinkTimeInterval := false
    firstTokenTime := none
    usesThinkingField := false }

/-- Substring test (JS `String.prototype.includes`). -/
def listContains (needle : List Char) : List Char → Bool
  | [] => needle.isEmpty
  | c :: rest => needle.isPrefixOf (c :: rest) || listContains needle rest

/-- `hay.includes(needle)`. -/
def strContains (hay needle : String) : Bool :=
  listContains needle.toList hay.toList

/-- `THINK_OPEN_TAGS` of `sendMessage`. -/
def THINK_OPEN_TAGS : List String := ["<think>", "<analysis>"]

/-- `THINK_CLOSE_TAGS` of `sendMessage`. -/
def THINK_CLOSE_TAGS : List String := ["</think>", "</analysis>"]

/-- JS `s.slice(-n)` for a positive literal `n`: the last `n` characters. -/
def takeLast (n : Nat) (s : String) : String :=
  String.mk (s.toList.drop (s.toList.length - n))

/-- `updateThinkStateFromChunk`: roll the 64-character tag buffer forward,
then enter reasoning on an open marker (starting the tick) and leave it on a
close marker (stopping the tick). -/
def updateThinkStateFromChunk (now : ℚ) (chunk : String) (st : StreamState) : StreamState :=
  let buf := takeLast 64 (st.thinkTagBuffer ++ chunk)
  let st1 := { st with thinkTagBuffer := buf }
  let st2 :=
    if !st1.isInThinkBlock && THINK_OPEN_TAGS.any (fun t => strContains buf t) then
      { st1 with thinkStartTime := some now, isInThinkBlock := true, thinkTimeInterval := true }
    else st1
  if st2.isInThinkBlock && THINK_CLOSE_TAGS.any (fun t => strContains buf t) then
    { st2 with isInThinkBlock := false, thinkTimeInterval := false }
  else st2

/-- The `thinking`-field branch of the `processStream` callback (channel
encoding): latch `usesThinkingField`, open a synthetic `<think>` segment if
none is open, lazily create the assistant message, append the reasoning
text, and push a live update. -/
def processThinking (requestStartTime : ℚ) (st : StreamState) (now : ℚ) (t : String) : StreamState :=
  let st1 := { st with
    usesThinkingField := true
    firstTokenTime := st.firstTokenTime <|> some now }
  let st2 :=
    if !st1.isInThinkBlock then
      { st1 with
        assistantContent := st1.assistantContent ++ "<think>"
        thinkStartTime := some now
        isInThinkBlock := true
        thinkTimeInterval := true }
    else st1
  let st3 :=
    match st2.assistantMessage with
    | some _ => st2
    | none =>
      { st2 with assistantMessage := some (MsgRec.mk "" true true
          (some (now - st2.thinkStartTime.getD now))
          (st2.firstTokenTime.map (fun ft => ft - requestStartTime)) none none none) }
  let st4 := { st3 with assistantContent := st3.assistantContent ++ t }
  let m := computeMetrics requestStartTime st4.firstTokenTime now st4.assistantContent.length
  { st4 with assistantMessage := st4.assistantMessage.map (fun msg =>
      applyUpdate msg st4.assistantContent (some true)
        (st4.thinkStartTime.map (fun ts => now - ts)) (some true) (some m)) }

/-- The regular-content path of the `processStream` callback: skip empty
chunks, close an open channel-based reasoning segment with a synthetic
`</think>`, run tag detection only while no channel signal has been seen,
lazily create the assistant message, append, and push a live update. -/
def processContent (requestStartTime : ℚ) (st : StreamState) (now : ℚ) (c : String) : StreamState :=
  if c = "" then st
  else
    let st1 := { st with firstTokenTime := st.firstTokenTime <|> some now }
    let st2 :=
      if st1.usesThinkingField && st1.isInThinkBlock then
        { st1 with
          assistantContent := st1.assistantContent ++ "</think>"
          isInThinkBlock := false
          thinkTimeInterval := false }
      else st1
    let st3 := if !st2.usesThinkingField then updateThinkStateFromChunk now c st2 else st2
    let st4 :=
      match st3.assistantMessage with
      | some _ => st3
      | none =>
        { st3 with assistantMessage := some (MsgRec.mk "" true st3.isInThinkBlock
            (match st3.thinkStartTime with
              | some ts => if st3.isInThinkBlock then some (now - ts) else none
              | none => none)
            (st3.firstTokenTime.map (fun ft => ft - requestStartTime)) none none none) }
    let st5 := { st4 with assistantContent := st4.assistantContent ++ c }
    let m := computeMetrics requestStartTime st5.firstTokenTime now st5.assistantContent.length
    { st5 with assistantMessage := st5.assistantMessage.map (fun msg =>
        applyUpdate msg st5.assistantContent (some true)
          (match st5.thinkStartTime with
            | some ts => if st5.thinkTimeInterval && st5.isInThinkBlock then some (now - ts) else none
            | none => none)
          (some st5.isInThinkBlock) (some m)) }

/-- The whole `processStream` callback for one fragment: the `thinking`
field is consumed first when truthy, otherwise the content path runs. -/
def processFragment (requestStartTime : ℚ) (st : StreamState) (f : Fragment) : StreamState :=
  match f.thinking with
  | some t =>
    if t = "" then
      match f.content with
      | some c => processContent requestStartTime st f.now c
      | none => st
  else processThinking requestStartTime st f.now t
  | none =>
    match f.content with
    | some c => processContent requestStartTime st f.now c
    | none => st

/-- The post-stream block of `sendMessage` (normal completion): freeze the
reasoning duration, stop the tick, and record the final non-loading update
with a final metrics snapshot. -/
def finishStream (requestStartTime now : ℚ) (st : StreamState) : StreamState :=
  match st.assistantMessage with
  | none => st
  | some msg =>
    let finalThinkTime :=
      if st.isInThinkBlock then
        match st.thinkStartTime with
        | some ts => some (now - ts)
        | none => msg.thinkTime
      else msg.thinkTime
    let st1 := { st with thinkTimeInterval := false }
    let m := computeMetrics requestStartTime st1.firstTokenTime now st1.assistantContent.length
    let msg1 := applyUpdate msg st1.assistantContent (some false) finalThinkTime (some false) (some m)
    { st1 with assistantMessage := some msg1 }

/-- The `cleanup` abort listener of `sendMessage`: stop the tick and, only
when a message exists and a reasoning block is open, record a final
non-loading, non-thinking update. -/
def cleanup (requestStartTime now : ℚ) (st : StreamState) : StreamState :=
  let st1 := { st with thinkTimeInterval := false }
  match st1.assistantMessage with
  | some msg =>
    if st1.isInThinkBlock then
      let m := computeMetrics requestStartTime st1.firstTokenTime now st1.assistantContent.length
      let msg1 := applyUpdate msg st1.assistantContent (some false)
        (st1.thinkStartTime.map (fun ts => now - ts)) (some false) (some m)
      { st1 with assistantMessage := some msg1 }
    else st1
  | none => st1

/-- How one turn's stream ends: normal completion, a user abort, or a
transport error thrown out of the fragment loop. -/
inductive TurnExit where
  | completed (now : ℚ)
  | aborted (now : ℚ)
  | errored
deriving DecidableEq, Repr

/-- Feed a fragment sequence to the interpreter from the initial state. -/
def runFragments (requestStartTime : ℚ) (frags : List Fragment) : StreamState :=
  frags.foldl (processFragment requestStartTime) initStreamState

/-- One turn's streaming section end to end: the fragment loop followed by
the exit path the source runs for that outcome.  On `errored` the exception
propagates to the catch block, which records the store error and rethrows
without touching the assistant message. -/
def runTurn (requestStartTime : ℚ) (frags : List Fragment) (exitKind : TurnExit) : StreamState :=
  let st := runFragments requestStartTime frags
  match exitKind with
  | TurnExit.completed now => finishStream requestStartTime now st
  | TurnExit.aborted now => cleanup requestStartTime now st
  | TurnExit.errored => st

/-- Split a character list at the first occurrence of `needle`, returning
the part before and the part after it. -/
def splitOnList (needle : List Char) : List Char → Option (List Char × List Char)
  | [] => if needle.isEmpty then some ([], []) else none
  | c :: rest =>
    if needle.isPrefixOf (c :: rest) then some ([], (c :: rest).drop needle.length)
    else (splitOnList needle rest).map (fun p => (c :: p.1, p.2))

/-- The reasoning text of an accumulated turn: the body of the first
`<think>…</think>` segment (what `wrapThinkBlocks` exposes for inspection,
restricted to the plain tags the interpreter emits). -/
def reasoningOf (s : String) : String :=
  match splitOnList "<think>".toList s.toList with
  | none => ""
  | some (_, rest) =>
    match splitOnList "</think>".toList rest with
    | none => String.mk rest
    | some (r, _) => String.mk r

/-- The answer text of an accumulated turn: the text outside the first
`<think>…</think>` segment (what `removeThinkBlocks` renders by default). -/
def answerOf (s : String) : String :=
  match splitOnList "<think>".toList s.toList with
  | none => s
  | some (pre, rest) =>
    match splitOnList "</think>".toList rest with
    | none => String.mk pre
    | some (_, tail) => String.mk (pre ++ tail)

/-- A chat as held in the store's `chats` array: identity plus the fields
`buildOllamaRequestBody` consumes. -/
structure StoreChat where
  id : String
  systemPrompt : Option String
  messages : List HistMessage
deriving DecidableEq, Repr

/-- The builder's view of a stored chat. -/
def StoreChat.toRec (c : StoreChat) : ChatRec :=
  { systemPrompt := c.systemPrompt, messages := c.messages }

/-- `sendMessage` of `stores/chat.ts`, turn-level model.  The guard phase is
embedded exactly in source order (`No active chat`, `No models available`,
empty-content-and-no-attachment), before any mutation.  The happy path then
performs the state mutations the claims observe: append the user message
(identified by `newUserId`; side-pipeline context blocks are out of scope
and omitted), build the request, run the streaming section, append the
assistant message produced by the stream, and propagate a transport error
as the rethrown failure of the turn.  `selectedModel` is the value of the
store getter of the same name. -/
def sendMessageModel (chats : List StoreChat) (models : List String)
    (selectedModel chatId content : String) (attachment : Option Attachment)
    (memoryContent : Option String) (settings : ISettings)
    (newUserId assistantId : String) (requestStartTime : ℚ)
    (frags : List Fragment) (exitKind : TurnExit) :
    List StoreChat × Except String Unit :=
  match chats.find? (fun c => c.id == chatId) with
  | none => (chats, Except.error "No active chat")
  | some chat =>
    if models.isEmpty then (chats, Except.error "No models available")
    else if jsTrim content = "" && attachment.isNone then
      (chats, Except.error "Message content or attachment is required")
    else
      let finalContent := jsTrim content
      let chat1 := { chat with messages := chat.messages ++ [⟨newUserId, Role.user, finalContent⟩] }
      let chats1 := chats.map (fun c => if c.id == chatId then chat1 else c)
      match buildOllamaRequestBody chat1.toRec selectedModel newUserId finalContent
          attachment memoryContent settings with
      | Except.error e => (chats1, Except.error e)
      | Except.ok _ =>
        let final := runTurn requestStartTime frags exitKind
        let chats2 :=
          match final.assistantMessage with
          | some m => chats1.map (fun c =>
              if c.id == chatId then
                { c with messages := c.messages ++ [⟨assistantId, Role.assistant, m.content⟩] }
              else c)
          | none => chats1
        match exitKind with
        | TurnExit.errored => (chats2, Except.error "Failed to stream message from Ollama")
        | _ => (chats2, Except.ok ())

/-- Modelled from the spec: `createThrottledFunction` (imported from
`@/utils/helpers.ts`, a file absent from the sources — only its call sites
`throttledSaveMessage` etc. are present).  Spec §4.4: each write kind is
throttled "with trailing-edge coalescing: multiple submissions within one
throttle window collapse to a single write of the most recent snapshot".
`writes` is the log of writes reaching the backing store; `pendingSnapshot`
is the snapshot awaiting the trailing edge. -/
structure ThrottleState (α : Type) where
  writes : List α
  pendingSnapshot : Option α
deriving DecidableEq, Repr

/-- Modelled from the spec: one submission inside the throttle window —
the pending snapshot is replaced, no write is issued yet. -/
def throttleSubmit (st : ThrottleState α) (snapshot : α) : ThrottleState α :=
  { st with pendingSnapshot := some snapshot }

/-- Modelled from the spec: the throttle window elapses (trailing edge) —
the pending snapshot, if any, becomes a single write. -/
def throttleWindowElapse (st : ThrottleState α) : ThrottleState α :=
  match st.pendingSnapshot with
  | some x => { writes := st.writes ++ [x], pendingSnapshot := none }
  | none => st

/-- A burst: every submission falls within one throttle window, after which
the window elapses. -/
def throttleBurst (st : ThrottleState α) (xs : List α) : ThrottleState α :=
  throttleWindowElapse (xs.foldl throttleSubmit st)

/-- Concatenation of a list of strings (no separator). -/
def joinAll : List String → String
  | [] => ""
  | s :: rest => s ++ joinAll rest

/-- A sequence of channel-encoded reasoning fragments: text plus the time
each is processed. -/
def thinkingFrags (l : List (String × ℚ)) : List Fragment :=
  l.map (fun p => ⟨some p.1, none, p.2⟩)

/-- A sequence of answer-content fragments: text plus the time each is
processed. -/
def contentFrags (l : List (String × ℚ)) : List Fragment :=
  l.map (fun p => ⟨none, some p.1, p.2⟩)

/-- A chat whose history has two non-excluded entries, used with
`maxMessages = 1` (so `availableSlots = 0`). -/
def c1Chat : ChatRec :=
  { systemPrompt := none
    messages := [⟨"m1", Role.user, "a"⟩, ⟨"m2", Role.assistant, "b"⟩, ⟨"m3", Role.user, "hi"⟩] }

/-- The prompt the builder actually assembles for `c1Chat` at
`maxMessages = 1`. -/
def c1Entries : List ChatMessage :=
  [⟨Role.user, "a"⟩, ⟨Role.assistant, "b"⟩, ⟨Role.user, "hi"⟩]

/-- The spec's three-way split of `"<think>reasoning</think> answer"`. -/
def c4Frags : List Fragment :=
  [⟨none, some "<th", 1⟩, ⟨none, some "ink>reasoning</th", 2⟩, ⟨none, some "ink> answer", 3⟩]

/-- The same turn delivered as a single fragment. -/
def c4Whole : List Fragment :=
  [⟨none, some "<think>reasoning</think> answer", 1⟩]

/-- Seventy filler characters — enough to push a leading marker out of the
64-character rolling tag buffer. -/
def manyA : String := String.mk (List.replicate 70 'a')

/-- A stream state in which the first classification signal was a
reasoning-channel fragment (channel encoding latched, channel still open). -/
def chanSt : StreamState :=
  { initStreamState with
    usesThinkingField := true
    isInThinkBlock := true
    thinkStartTime := some 0
    assistantContent := "<think>r" }

/-- A user message consisting solely of a UI-only internal-context block. -/
def dBlock : String :=
  "<details class=\"internal-context\"><summary>t</summary><pre>b</pre></details>"

/-- A chat whose middle history entry is `dBlock` (blank after stripping). -/
def c10Chat : ChatRec :=
  { systemPrompt := none
    messages := [⟨"m1", Role.user, "x"⟩, ⟨"m2", Role.user, dBlock⟩, ⟨"m3", Role.user, "hi"⟩] }

/-- C1: the claim says the assembled prompt of `buildOllamaRequestBody` has
at most `maxMessages` entries even when `availableSlots = 0`.  The code
belies it: with `maxMessages = 1` (no system prompt, no memory)
`availableSlots = 0`, and `chat.messages.slice(-0)` is `slice(0)` — the
whole history — so the prompt for `c1Chat` has 3 entries, not ≤ 1.  The
`Math.max(0, …)` clamp shows the intended cap; `slice(-0)` defeats it. -/
theorem buildOllama_availableSlots_zero_overflow :
    buildOllamaRequestBody c1Chat "m" "m3" "hi" none none { maxMessages := 1 } =
        Except.ok (BuildResult.messagesBody "m" c1Entries) ∧
      c1Entries.length = 3 ∧ maxMessagesOf { maxMessages := 1 } = 1 :=
  ⟨by rfl, by rfl, by rfl⟩

/-- C2: evaluation of the streaming section at the failing input — one
content fragment `"partial"` followed by a transport error.  No exit-path
code touches the message on the error path (the `cleanup` listener runs
only on abort, and even then only inside a reasoning block; the catch block
records the store error and rethrows), so the assistant message keeps
`isLoading = true`.  Its recorded content does equal the accumulated
`"partial"` — that half of the claim holds. -/
theorem sendMessage_error_path_keeps_loading :
    ((runTurn 0 [⟨none, some "partial", 1⟩] TurnExit.errored).assistantMessage.map
      (fun m => (m.isLoading, m.content))) = some (true, "partial") := by
  decide

/-- C4 (as amended): the spec's concrete fragmentation test passes — feeding
`"<th"`, `"ink>reasoning</th"`, `"ink> answer"` gives the same accumulated
text and the same terminal classification state as feeding the whole
concatenation, with reasoning text `"reasoning"` and answer text
`" answer"`.  (Invariance at *arbitrary* split points is refuted
separately.) -/
theorem thinkTag_concrete_split_equivalence :
    (runFragments 0 c4Frags).assistantContent = (runFragments 0 c4Whole).assistantContent ∧
    (runFragments 0 c4Frags).isInThinkBlock = (runFragments 0 c4Whole).isInThinkBlock ∧
    (runFragments 0 c4Frags).isInThinkBlock = false ∧
    (runFragments 0 c4Frags).usesThinkingField = (runFragments 0 c4Whole).usesThinkingField ∧
    reasoningOf (runFragments 0 c4Frags).assistantContent = "reasoning" ∧
    answerOf (runFragments 0 c4Frags).assistantContent = " answer" := by
  refine ⟨by decide, by decide, by decide, by decide, by decide, by decide⟩

/-- C4 counterexample: tag classification is *not* invariant under
fragmentation at arbitrary split points.  The same character sequence
`"<think>" ++ 70·'a'` delivered as one fragment leaves the open marker
outside the 64-character rolling buffer (never entering reasoning mode),
while splitting it after the marker enters reasoning mode. -/
theorem thinkTag_fragmentation_not_invariant :
    (runFragments 0 [⟨none, some ("<think>" ++ manyA), 1⟩]).isInThinkBlock = false ∧
    (runFragments 0 [⟨none, some "<think>", 1⟩, ⟨none, some manyA, 2⟩]).isInThinkBlock = true := by
  refine ⟨by decide, by decide⟩

/-- C5 counterexample: after a tag-based first signal (`"<think>x"` arriving
as content), a later reasoning-channel fragment *is* still treated as a
reasoning channel: it latches `usesThinkingField` and its text is appended
to the open reasoning segment — so the first signal does not exclusively
fix the encoding in the tag→channel direction. -/
theorem tag_first_does_not_latch :
    (runFragments 0 [⟨none, some "<think>x", 1⟩, ⟨some "y", none, 2⟩]).usesThinkingField = true ∧
    (runFragments 0 [⟨none, some "<think>x", 1⟩, ⟨some "y", none, 2⟩]).assistantContent = "<think>xy" ∧
    ((runFragments 0 [⟨none, some "<think>x", 1⟩, ⟨some "y", none, 2⟩]).assistantMessage.map
      (fun m => m.isThinking)) = some true := by
  refine ⟨by decide, by decide, by decide⟩

/-- C9: the metrics block of `sendMessage`.  Before a first fragment both
`firstTokenMs` and `speedCps` are undefined; once a first fragment exists,
`speedCps` is a quotient by a denominator floored at `1/1000` (hence
well-defined and ≥ 0), and `firstTokenMs ≤ responseMs` whenever the
first-fragment time does not exceed the current time. -/
theorem computeMetrics_sound (rs ft now : ℚ) (chars : Nat) (h : ft ≤ now) :
    (computeMetrics rs none now chars).firstTokenMs = none ∧
    (computeMetrics rs none now chars).speedCps = none ∧
    (computeMetrics rs (some ft) now chars).speedCps
      = some ((chars : ℚ) / max (1 / 1000) ((now - ft) / 1000)) ∧
    (1 : ℚ) / 1000 ≤ max (1 / 1000) ((now - ft) / 1000) ∧
    (∀ v, (computeMetrics rs (some ft) now chars).speedCps = some v → 0 ≤ v) ∧
    (∀ a, (computeMetrics rs (some ft) now chars).firstTokenMs = some a →
      a ≤ (computeMetrics rs (some ft) now chars).responseMs) := by
  refine ⟨rfl, rfl, rfl, le_max_left _ _, ?_, ?_⟩
  · intro v hv
    simp only [computeMetrics, Option.map_some] at hv
    obtain rfl : ((chars : ℚ) / max (1 / 1000) ((now - ft) / 1000)) = v := by
      exact Option.some.inj hv
    have hden : (0 : ℚ) < max (1 / 1000) ((now - ft) / 1000) :=
      lt_of_lt_of_le (by norm_num) (le_max_left _ _)
    exact div_nonneg (Nat.cast_nonneg chars) (le_of_lt hden)
  · intro a ha
    simp only [computeMetrics, Option.map_some] at ha
    obtain rfl : ft - rs = a := Option.some.inj ha
    exact sub_le_sub_right h rs

/-- C9 witness: the metrics theorem applied at `requestStart = 0`,
`firstFragment = 1`, `now = 3`, `outputChars = 4`. -/
theorem computeMetrics_sound_witness :
    (computeMetrics 0 none 3 4).firstTokenMs = none ∧
    (computeMetrics 0 none 3 4).speedCps = none ∧
    (computeMetrics 0 (some 1) 3 4).speedCps
      = some ((4 : ℚ) / max (1 / 1000) ((3 - 1) / 1000)) ∧
    (1 : ℚ) / 1000 ≤ max (1 / 1000) (((3 : ℚ) - 1) / 1000) ∧
    (∀ v, (computeMetrics 0 (some 1) 3 4).speedCps = some v → 0 ≤ v) ∧
    (∀ a, (computeMetrics 0 (some 1) 3 4).firstTokenMs = some a →
      a ≤ (computeMetrics 0 (some 1) 3 4).responseMs) :=
  computeMetrics_sound 0 1 3 4 (by norm_num)

/-- Inside one throttle window, submissions only replace the pending
snapshot; nothing is written until the trailing edge. -/
theorem foldl_throttleSubmit (xs : List α) : ∀ st : ThrottleState α,
    (xs.foldl throttleSubmit st).writes = st.writes ∧
    (xs.foldl throttleSubmit st).pendingSnapshot = xs.getLast?.or st.pendingSnapshot := by
  induction xs with
  | nil => intro st; exact ⟨rfl, rfl⟩
  | cons x rest ih =>
    intro st
    have h := ih (throttleSubmit st x)
    rw [List.foldl_cons]
    refine ⟨h.1, ?_⟩
    rw [h.2]
    cases hr : rest.getLast? with
    | none =>
      have : rest = [] := by
        cases rest with
        | nil => rfl
        | cons y ys => simp [List.getLast?_concat] at hr
      subst this
      simp [throttleSubmit, Option.or]
    | some y =>
      have hne : rest ≠ [] := by
        intro hcon; subst hcon; simp at hr
      have : (x :: rest).getLast? = rest.getLast? := by
        cases rest with
        | nil => exact absurd rfl hne
        | cons z zs => rfl
      rw [this, hr]
      simp [Option.or]

/-- C8: a burst of N ≥ 1 submissions inside one throttle window produces,
once the window elapses, exactly one write to the backing store, and the
written snapshot is the last submission (spec-modelled persistence
coordinator). -/
theorem throttle_burst_single_last_write (xs : List α) (h : xs ≠ []) :
    (throttleBurst ⟨[], none⟩ xs).writes = [xs.getLast h] ∧
    (throttleBurst ⟨[], none⟩ xs).pendingSnapshot = none := by
  have hf := foldl_throttleSubmit xs (⟨[], none⟩ : ThrottleState α)
  have hlast : xs.getLast?.or none = some (xs.getLast h) := by
    rw [List.getLast?_eq_getLast xs h]
    rfl
  unfold throttleBurst throttleWindowElapse
  rw [hf.2, hlast]
  simp [hf.1]

/-- C8 witness: the burst `[1, 2, 3]` yields the single write `3`. -/
theorem throttle_burst_single_last_write_witness :
    (throttleBurst ⟨[], none⟩ [1, 2, 3]).writes = [([1, 2, 3] : List Nat).getLast (by decide)] ∧
    (throttleBurst (⟨[], none⟩ : ThrottleState Nat) [1, 2, 3]).pendingSnapshot = none :=
  throttle_burst_single_last_write [1, 2, 3] (by decide)

/-- A string whose trim is non-empty is itself non-empty. -/
theorem content_ne_of_trim_ne {s : String} (h : jsTrim s ≠ "") : s ≠ "" := by
  intro hc
  subst hc
  exact h rfl

/-- Appending to a non-empty string keeps it non-empty. -/
theorem str_append_ne_empty (a b : String) (ha : a ≠ "") : a ++ b ≠ "" := by
  intro hcon
  apply ha
  have hd : a.data ++ b.data = ([] : List Char) := by
    have h0 := congrArg String.data hcon
    rw [String.data_append] at h0
    exact h0
  have ha0 : a.data = [] := (List.append_eq_nil.mp hd).1
  cases a with
  | mk d =>
    cases (show d = [] from ha0)
    rfl

/-- The merge loop keeps the no-adjacent-equal-roles invariant of the
`merged` array. -/
theorem mergeAux_chain (ms : List ChatMessage) : ∀ acc : List ChatMessage,
    List.Chain' (fun a b => a.role ≠ b.role) acc →
    List.Chain' (fun a b => a.role ≠ b.role) (mergeAux acc ms) := by
  induction ms with
  | nil =>
    intro acc h
    rw [show mergeAux acc [] = acc.reverse from rfl, List.chain'_reverse]
    exact h.imp (fun a b hab => Ne.symm hab)
  | cons m rest ih =>
    intro acc h
    by_cases hblank : jsTrim m.content = ""
    · rw [show mergeAux acc (m :: rest) = mergeAux acc rest from by
        simp only [mergeAux, if_pos hblank]]
      exact ih acc h
    · cases acc with
      | nil =>
        rw [show mergeAux [] (m :: rest) = mergeAux [⟨m.role, m.content⟩] rest from by
          simp only [mergeAux, if_neg hblank]]
        exact ih _ (List.chain'_singleton _)
      | cons prev accTl =>
        by_cases hrole : prev.role = m.role
        · rw [show mergeAux (prev :: accTl) (m :: rest)
              = mergeAux ({ role := prev.role, content := joinFiltered prev.content m.content } :: accTl) rest from by
            simp only [mergeAux, if_neg hblank, if_pos hrole]]
          apply ih
          rw [List.chain'_cons'] at h ⊢
          exact ⟨h.1, h.2⟩
        · rw [show mergeAux (prev :: accTl) (m :: rest)
              = mergeAux (⟨m.role, m.content⟩ :: prev :: accTl) rest from by
            simp only [mergeAux, if_neg hblank, if_neg hrole]]
          apply ih
          rw [List.chain'_cons]
          exact ⟨Ne.symm hrole, h⟩

/-- On inputs whose entries all have non-blank content, the source merge
coincides with the spec-side content-preserving merge. -/
theorem mergeAux_eq_spec (ms : List ChatMessage) : ∀ acc : List ChatMessage,
    (∀ m ∈ ms, jsTrim m.content ≠ "") → (∀ a ∈ acc, a.content ≠ "") →
    mergeAux acc ms = mergeSpecAux acc ms := by
  induction ms with
  | nil => intro acc _ _; rfl
  | cons m rest ih =>
    intro acc hall hacc
    have hm : jsTrim m.content ≠ "" := hall m (List.mem_cons_self m rest)
    have hrest : ∀ x ∈ rest, jsTrim x.content ≠ "" :=
      fun x hx => hall x (List.mem_cons_of_mem m hx)
    have hmc : m.content ≠ "" := content_ne_of_trim_ne hm
    cases acc with
    | nil =>
      simp only [mergeAux, mergeSpecAux, if_neg hm]
      refine ih _ hrest ?_
      intro a ha
      rw [List.mem_singleton] at ha
      subst ha
      exact hmc
    | cons prev accTl =>
      have hprev : prev.content ≠ "" := hacc prev (List.mem_cons_self prev accTl)
      by_cases hrole : prev.role = m.role
      · simp only [mergeAux, mergeSpecAux, if_neg hm, if_pos hrole]
        have hj : joinFiltered prev.content m.content = prev.content ++ "\n\n" ++ m.content := by
          unfold joinFiltered
          rw [if_neg hprev, if_neg hmc]
        rw [hj]
        refine ih _ hrest ?_
        intro a ha
        rcases List.mem_cons.mp ha with ha1 | ha2
        · subst ha1
          exact str_append_ne_empty _ _ (str_append_ne_empty _ _ hprev)
        · exact hacc a (List.mem_cons_of_mem prev ha2)
      · simp only [mergeAux, mergeSpecAux, if_neg hm, if_neg hrole]
        refine ih _ hrest ?_
        intro a ha
        rcases List.mem_cons.mp ha with ha1 | ha2
        · subst ha1
          exact hmc
        · exact hacc a ha2

/-- C3 (as amended): the merged entry list never has two adjacent entries of
the same role, and — provided every input entry has non-blank content (the
source drops whitespace-only entries) — the merge equals the spec-side
content-preserving merge, which joins adjacent same-role contents with a
blank-line separator and drops nothing. -/
theorem mergeConsecutiveRoles_adjacent_and_preserving (ms : List ChatMessage) :
    List.Chain' (fun a b => a.role ≠ b.role) (mergeConsecutiveRoles ms) ∧
    ((∀ m ∈ ms, jsTrim m.content ≠ "") → mergeConsecutiveRoles ms = mergeSpecModel ms) :=
  ⟨mergeAux_chain ms [] List.chain'_nil,
   fun hall => mergeAux_eq_spec ms [] hall (by intro a ha; cases ha)⟩

/-- C3 witness: the amended theorem at
`[user "a", user "b", assistant "c"]`. -/
theorem mergeConsecutiveRoles_adjacent_and_preserving_witness :
    List.Chain' (fun a b => a.role ≠ b.role)
      (mergeConsecutiveRoles [⟨Role.user, "a"⟩, ⟨Role.user, "b"⟩, ⟨Role.assistant, "c"⟩]) ∧
    mergeConsecutiveRoles [⟨Role.user, "a"⟩, ⟨Role.user, "b"⟩, ⟨Role.assistant, "c"⟩]
      = mergeSpecModel [⟨Role.user, "a"⟩, ⟨Role.user, "b"⟩, ⟨Role.assistant, "c"⟩] :=
  ⟨(mergeConsecutiveRoles_adjacent_and_preserving _).1,
   (mergeConsecutiveRoles_adjacent_and_preserving _).2 (by decide)⟩

/-- C3 counterexample: a whitespace-only entry is dropped outright — the
output is empty although the input entry's content is not — so "no entry
content is dropped" fails on arbitrary inputs. -/
theorem mergeConsecutiveRoles_drops_blank_entry :
    mergeConsecutiveRoles [⟨Role.user, " "⟩] = [] ∧ (" " : String) ≠ "" :=
  ⟨by decide, by decide⟩

/-- An entry whose content trims to empty is transparent to the merge. -/
theorem mergeAux_skip_blank (xs : List ChatMessage) :
    ∀ (acc : List ChatMessage) (b : ChatMessage) (ys : List ChatMessage),
    jsTrim b.content = "" →
    mergeAux acc (xs ++ b :: ys) = mergeAux acc (xs ++ ys) := by
  induction xs with
  | nil =>
    intro acc b ys hb
    simp only [List.nil_append, mergeAux, if_pos hb]
  | cons x xs ih =>
    intro acc b ys hb
    by_cases hx : jsTrim x.content = ""
    · simp only [List.cons_append, mergeAux, if_pos hx]
      exact ih _ _ _ hb
    · cases acc with
      | nil =>
        simp only [List.cons_append, mergeAux, if_neg hx]
        exact ih _ _ _ hb
      | cons prev accTl =>
        by_cases hrole : prev.role = x.role
        · simp only [List.cons_append, mergeAux, if_neg hx, if_pos hrole]
          exact ih _ _ _ hb
        · simp only [List.cons_append, mergeAux, if_neg hx, if_neg hrole]
          exact ih _ _ _ hb

/-- C10: a history entry whose content is blank after internal-context
markup is stripped contributes nothing to the assembled prompt — the
builder's output equals the merge of the assembled entry list with that
entry deleted (it appears neither as its own entry nor inside a merged
neighbor). -/
theorem blank_history_entry_omitted (chat : ChatRec)
    (selectedModel userMessageId finalContent : String) (memoryContent : Option String)
    (settings : ISettings) (msgs xs ys : List ChatMessage) (b : ChatMessage)
    (hrun : buildOllamaRequestBody chat selectedModel userMessageId finalContent none
        memoryContent settings
      = Except.ok (BuildResult.messagesBody selectedModel msgs))
    (hsplit : assembledEntries chat userMessageId finalContent memoryContent
        (maxMessagesOf settings) = xs ++ b :: ys)
    (hblank : jsTrim b.content = "") :
    msgs = mergeConsecutiveRoles (xs ++ ys) := by
  simp only [buildOllamaRequestBody] at hrun
  split at hrun
  · exact absurd hrun (by simp)
  · split at hrun
    · exact absurd hrun (by simp)
    · split at hrun
      · exact absurd hrun (by simp)
      · split at hrun
        · exact absurd hrun (by simp)
        · simp only [Except.ok.injEq, BuildResult.messagesBody.injEq, true_and] at hrun
          rw [← hrun, hsplit]
          unfold mergeConsecutiveRoles
          exact mergeAux_skip_blank xs [] b ys hblank

/-- C10 witness: for `c10Chat`, whose middle entry is a pure
internal-context block, the assembled prompt equals the merge with that
entry deleted — the surviving user entries merge into one. -/
theorem blank_history_entry_omitted_witness :
    [ChatMessage.mk Role.user "x\n\nhi"]
      = mergeConsecutiveRoles ([⟨Role.user, "x"⟩] ++ [⟨Role.user, "hi"⟩]) :=
  blank_history_entry_omitted c10Chat "m" "m3" "hi" none ⟨20⟩
    [⟨Role.user, "x\n\nhi"⟩] [⟨Role.user, "x"⟩] [⟨Role.user, "hi"⟩] ⟨Role.user, ""⟩
    (by rfl) (by rfl) (by rfl)

/-- C5 (as amended): the channel→tag direction of the latch holds.  Once a
reasoning-channel fragment has been seen (`usesThinkingField`), a content
fragment never reaches tag detection: the rolling tag buffer and the
tag-based reasoning start time are untouched, and the turn is not in a
reasoning block afterwards (the only transition the content path performs
is the channel close), no matter what markers the content contains.  The
tag→channel direction of the original claim is refuted separately: a
reasoning-channel fragment arriving after a tag-based first signal is still
consumed as a reasoning channel. -/
theorem channel_first_latches (rs now : ℚ) (st : StreamState) (c : String)
    (hutf : st.usesThinkingField = true) (hc : c ≠ "") :
    (processFragment rs st ⟨none, some c, now⟩).thinkTagBuffer = st.thinkTagBuffer ∧
    (processFragment rs st ⟨none, some c, now⟩).isInThinkBlock = false ∧
    (processFragment rs st ⟨none, some c, now⟩).thinkStartTime = st.thinkStartTime := by
  obtain ⟨ts, ib, buf, amsg, cont, intv, ftt, utf⟩ := st
  have hu : utf = true := hutf
  subst hu
  cases ib <;> cases amsg <;> simp [processFragment, processContent, hc]

/-- C5 witness: the latch theorem applied at `chanSt` (channel encoding
latched, reasoning channel open) and a content chunk that contains an open
marker. -/
theorem channel_first_latches_witness :
    ("<think>boo" : String) ≠ "" ∧
    (processFragment 0 chanSt ⟨none, some "<think>boo", 5⟩).thinkTagBuffer = chanSt.thinkTagBuffer ∧
    (processFragment 0 chanSt ⟨none, some "<think>boo", 5⟩).isInThinkBlock = false ∧
    (processFragment 0 chanSt ⟨none, some "<think>boo", 5⟩).thinkStartTime = chanSt.thinkStartTime :=
  ⟨by decide,
   (channel_first_latches 0 5 chanSt "<think>boo" rfl (by decide)).1,
   (channel_first_latches 0 5 chanSt "<think>boo" rfl (by decide)).2.1,
   (channel_first_latches 0 5 chanSt "<think>boo" rfl (by decide)).2.2⟩

/-- A reasoning-channel fragment processed while the synthetic reasoning
segment is open appends its text and preserves the channel invariant. -/
theorem processThinking_keeps (rs now : ℚ) (t : String) (st : StreamState)
    (hib : st.isInThinkBlock = true) (hmsg : st.assistantMessage.isSome = true) :
    (processThinking rs st now t).assistantContent = st.assistantContent ++ t ∧
    (processThinking rs st now t).isInThinkBlock = true ∧
    (processThinking rs st now t).usesThinkingField = true ∧
    (processThinking rs st now t).assistantMessage.isSome = true := by
  obtain ⟨msg, hm⟩ := Option.isSome_iff_exists.mp hmsg
  simp [processThinking, hib, hm]

/-- The first reasoning-channel fragment of a turn opens a synthetic
`<think>` segment before its text. -/
theorem processThinking_first (rs now : ℚ) (t : String) :
    (processThinking rs initStreamState now t).assistantContent = "<think>" ++ t ∧
    (processThinking rs initStreamState now t).isInThinkBlock = true ∧
    (processThinking rs initStreamState now t).usesThinkingField = true ∧
    (processThinking rs initStreamState now t).assistantMessage.isSome = true := by
  simp [processThinking, initStreamState]

/-- Folding further reasoning-channel fragments appends their concatenated
text (empty fragments are skipped by the callback and contribute nothing). -/
theorem thinkingFrags_fold (rs : ℚ) (l : List (String × ℚ)) : ∀ st : StreamState,
    st.isInThinkBlock = true → st.usesThinkingField = true →
    st.assistantMessage.isSome = true →
    ((thinkingFrags l).foldl (processFragment rs) st).assistantContent
        = st.assistantContent ++ joinAll (l.map Prod.fst) ∧
    ((thinkingFrags l).foldl (processFragment rs) st).isInThinkBlock = true ∧
    ((thinkingFrags l).foldl (processFragment rs) st).usesThinkingField = true ∧
    ((thinkingFrags l).foldl (processFragment rs) st).assistantMessage.isSome = true := by
  induction l with
  | nil =>
    intro st h1 h2 h3
    refine ⟨?_, h1, h2, h3⟩
    simp [thinkingFrags, joinAll]
  | cons p rest ih =>
    intro st h1 h2 h3
    have hfrag : thinkingFrags (p :: rest)
        = (⟨some p.1, none, p.2⟩ : Fragment) :: thinkingFrags rest := rfl
    rw [hfrag, List.foldl_cons]
    by_cases hp : p.1 = ""
    · have hstep : processFragment rs st ⟨some p.1, none, p.2⟩ = st := by
        simp [processFragment, hp]
      rw [hstep]
      have hrec := ih st h1 h2 h3
      refine ⟨?_, hrec.2.1, hrec.2.2⟩
      rw [hrec.1]
      simp [joinAll, hp]
    · have heq : processFragment rs st ⟨some p.1, none, p.2⟩ = processThinking rs st p.2 p.1 := by
        simp [processFragment, hp]
      rw [heq]
      have hstep := processThinking_keeps rs p.2 p.1 st h1 h3
      have hrec := ih _ hstep.2.1 hstep.2.2.1 hstep.2.2.2
      refine ⟨?_, hrec.2.1, hrec.2.2⟩
      rw [hrec.1, hstep.1]
      simp [joinAll, String.append_assoc]

/-- The first answer-content fragment after channel reasoning closes the
synthetic segment with `</think>` before its own text. -/
theorem processContent_close (rs now : ℚ) (c : String) (st : StreamState)
    (hib : st.isInThinkBlock = true) (hutf : st.usesThinkingField = true)
    (hmsg : st.assistantMessage.isSome = true) (hc : c ≠ "") :
    (processContent rs st now c).assistantContent = st.assistantContent ++ "</think>" ++ c ∧
    (processContent rs st now c).isInThinkBlock = false ∧
    (processContent rs st now c).usesThinkingField = true ∧
    (processContent rs st now c).assistantMessage.isSome = true := by
  obtain ⟨msg, hm⟩ := Option.isSome_iff_exists.mp hmsg
  simp [processContent, hib, hutf, hm, hc]

/-- An answer-content fragment in channel mode, outside any reasoning
block, appends its text and preserves the mode. -/
theorem processContent_answer (rs now : ℚ) (c : String) (st : StreamState)
    (hib : st.isInThinkBlock = false) (hutf : st.usesThinkingField = true)
    (hmsg : st.assistantMessage.isSome = true) :
    (processContent rs st now c).assistantContent = st.assistantContent ++ c ∧
    (processContent rs st now c).isInThinkBlock = false ∧
    (processContent rs st now c).usesThinkingField = true ∧
    (processContent rs st now c).assistantMessage.isSome = true := by
  by_cases hc : c = ""
  · subst hc
    refine ⟨?_, ?_, ?_, ?_⟩ <;> simp [processContent, hib, hutf, hmsg]
  · obtain ⟨msg, hm⟩ := Option.isSome_iff_exists.mp hmsg
    simp [processContent, hib, hutf, hm, hc]

/-- Folding answer-content fragments in channel mode appends their
concatenated text. -/
theorem contentFrags_fold (rs : ℚ) (l : List (String × ℚ)) : ∀ st : StreamState,
    st.isInThinkBlock = false → st.usesThinkingField = true →
    st.assistantMessage.isSome = true →
    ((contentFrags l).foldl (processFragment rs) st).assistantContent
        = st.assistantContent ++ joinAll (l.map Prod.fst) ∧
    ((contentFrags l).foldl (processFragment rs) st).isInThinkBlock = false ∧
    ((contentFrags l).foldl (processFragment rs) st).usesThinkingField = true ∧
    ((contentFrags l).foldl (processFragment rs) st).assistantMessage.isSome = true := by
  induction l with
  | nil =>
    intro st h1 h2 h3
    refine ⟨?_, h1, h2, h3⟩
    simp [contentFrags, joinAll]
  | cons p rest ih =>
    intro st h1 h2 h3
    have hfrag : contentFrags (p :: rest)
        = (⟨none, some p.1, p.2⟩ : Fragment) :: contentFrags rest := rfl
    rw [hfrag, List.foldl_cons]
    have heq : processFragment rs st ⟨none, some p.1, p.2⟩ = processContent rs st p.2 p.1 := rfl
    rw [heq]
    have hstep := processContent_answer rs p.2 p.1 st h1 h2 h3
    have hrec := ih _ hstep.2.1 hstep.2.2.1 hstep.2.2.2
    refine ⟨?_, hrec.2.1, hrec.2.2⟩
    rw [hrec.1, hstep.1]
    simp [joinAll, String.append_assoc]

/-- C6: under channel encoding — reasoning-channel fragments (first one
non-empty) followed by answer fragments (first one non-empty) — the
accumulated text has the tagged shape a tag-encoded stream would produce:
`<think>`, the reasoning text, the synthesized `</think>`, the answer
text. -/
theorem channel_encoding_synthesizes_markers (rs : ℚ) (t0 : String) (tau0 : ℚ)
    (ts : List (String × ℚ)) (c0 : String) (gam0 : ℚ) (cs : List (String × ℚ))
    (ht : t0 ≠ "") (hc : c0 ≠ "") :
    (runFragments rs (thinkingFrags ((t0, tau0) :: ts)
        ++ contentFrags ((c0, gam0) :: cs))).assistantContent
      = "<think>" ++ joinAll (((t0, tau0) :: ts).map Prod.fst) ++ "</think>"
        ++ joinAll (((c0, gam0) :: cs).map Prod.fst) := by
  unfold runFragments
  rw [List.foldl_append]
  have hfragT : thinkingFrags ((t0, tau0) :: ts)
      = (⟨some t0, none, tau0⟩ : Fragment) :: thinkingFrags ts := rfl
  rw [hfragT, List.foldl_cons]
  have heq0 : processFragment rs initStreamState ⟨some t0, none, tau0⟩
      = processThinking rs initStreamState tau0 t0 := by
    simp [processFragment, ht]
  rw [heq0]
  have h1 := processThinking_first rs tau0 t0
  have h2 := thinkingFrags_fold rs ts _ h1.2.1 h1.2.2.1 h1.2.2.2
  have hfragC : contentFrags ((c0, gam0) :: cs)
      = (⟨none, some c0, gam0⟩ : Fragment) :: contentFrags cs := rfl
  rw [hfragC, List.foldl_cons]
  have heqC : ∀ st : StreamState, processFragment rs st ⟨none, some c0, gam0⟩
      = processContent rs st gam0 c0 := fun _ => rfl
  rw [heqC]
  have h3 := processContent_close rs gam0 c0 _ h2.2.1 h2.2.2.1 h2.2.2.2 hc
  have h4 := contentFrags_fold rs cs _ h3.2.1 h3.2.2.1 h3.2.2.2
  rw [h4.1, h3.1, h2.1, h1.1]
  simp [joinAll, String.append_assoc]

/-- C6 witness: the channel stream `thinking "r"` then `content "a"`
accumulates `"<think>r</think>a"`. -/
theorem channel_encoding_synthesizes_markers_witness :
    (runFragments 0 (thinkingFrags [("r", 1)] ++ contentFrags [("a", 2)])).assistantContent
      = "<think>" ++ joinAll ([("r", (1 : ℚ))].map Prod.fst) ++ "</think>"
        ++ joinAll ([("a", (2 : ℚ))].map Prod.fst) :=
  channel_encoding_synthesizes_markers 0 "r" 1 [] "a" 2 [] (by decide) (by decide)

/-- C7: the precondition guards of `sendMessage` — no model available, or
empty trimmed text with no attachment (the missing-chat guard fires even
earlier) — fail the turn with an error before any request is built and
without mutating the chat list: no user message and no assistant message is
added. -/
theorem sendMessage_preconditions_fail_fast (chats : List StoreChat) (models : List String)
    (selectedModel chatId content : String) (attachment : Option Attachment)
    (memoryContent : Option String) (settings : ISettings) (newUserId assistantId : String)
    (rs : ℚ) (frags : List Fragment) (exitKind : TurnExit)
    (h : models = [] ∨ (jsTrim content = "" ∧ attachment = none)) :
    (sendMessageModel chats models selectedModel chatId content attachment memoryContent
        settings newUserId assistantId rs frags exitKind).1 = chats ∧
    ∃ e, (sendMessageModel chats models selectedModel chatId content attachment memoryContent
        settings newUserId assistantId rs frags exitKind).2 = Except.error e := by
  unfold sendMessageModel
  cases hfind : chats.find? (fun c => c.id == chatId) with
  | none => exact ⟨rfl, "No active chat", rfl⟩
  | some chat =>
    dsimp only
    rcases h with hm | ⟨hct, hat⟩
    · subst hm
      exact ⟨rfl, "No models available", rfl⟩
    · subst hat
      by_cases hm2 : models.isEmpty
      · rw [if_pos hm2]
        exact ⟨rfl, "No models available", rfl⟩
      · rw [if_neg hm2]
        have hcond : (jsTrim content = "" && (none : Option Attachment).isNone) = true := by
          simp [hct]
        rw [if_pos hcond]
        exact ⟨rfl, "Message content or attachment is required", rfl⟩

/-- C7 witness: with an existing chat but an empty model list, `sendMessage`
errors and the chat list is unchanged. -/
theorem sendMessage_preconditions_fail_fast_witness :
    (sendMessageModel [⟨"c1", none, []⟩] [] "m" "c1" "hi" none none ⟨20⟩ "u" "a" 0 []
        TurnExit.errored).1 = [⟨"c1", none, []⟩] ∧
    ∃ e, (sendMessageModel [⟨"c1", none, []⟩] [] "m" "c1" "hi" none none ⟨20⟩ "u" "a" 0 []
        TurnExit.errored).2 = Except.error e :=
  sendMessage_preconditions_fail_fast [⟨"c1", none, []⟩] [] "m" "c1" "hi" none none ⟨20⟩
    "u" "a" 0 [] TurnExit.errored (Or.inl rfl)

end Plama
